import Mathlib

/-!
Verification of the ESG data-quality core (unit normalizer, validation
engine, validation/review service) against its natural-language
specification.

Modelling conventions, used throughout:
* Python floats are modelled as exact rationals (ℚ).  All the numeric
  algorithms under study (tolerance checks, z-scores, conversion factors)
  are specified over real arithmetic; binary rounding of IEEE floats is
  not modelled.
* UUIDs are modelled as ℕ; uniqueness of database primary keys appears as
  explicit `Nodup` hypotheses where a proof needs it.
* Python dicts are modelled as association lists with first-key-wins
  lookup and dict-style insertion (overwrite in place, append if new) so
  that insertion order is preserved exactly as in CPython.
* Python exceptions are modelled with `Except PyError`.  A function that
  raises before mutating state is embedded as returning `.error` without
  producing a new state, which mirrors the source's statement order.
* Human-readable message strings, timestamps and audit-log rows carry no
  information used by any claim; message fields built by float formatting
  are omitted from the embedded result records (noted per definition).
-/

namespace ESG

/-- Python `abs` on a rational. -/
def pyAbs (q : ℚ) : ℚ := if q < 0 then -q else q

/-- Dict lookup, `d.get(k)`: first binding wins (keys of a Python dict are
unique, so association lists built by `pyDictSet` never hold a key twice). -/
def alGet {α : Type} (d : List (String × α)) (k : String) : Option α :=
  (d.find? (fun p => p.1 == k)).map (·.2)

/-- Dict assignment `d[k] = v`: overwrite in place, append if the key is new. -/
def pyDictSet {α : Type} (d : List (String × α)) (k : String) (v : α) :
    List (String × α) :=
  match d with
  | [] => [(k, v)]
  | (k', v') :: rest =>
    if k' = k then (k, v) :: rest else (k', v') :: pyDictSet rest k v

/-- Errors raised by the embedded Python code. -/
inductive PyError
  | nameError (name : String)
  | valueError
  | keyError
  | zeroDivision
  | unitNotFound
  | categoryMismatch
  | invalidValue
deriving DecidableEq

/-! ## Validation engine (src/validation/engine.py)

The `parameters: Dict[str, Any]` of a rule is modelled as a structure of
optional fields, one per key the engine reads; `parameters.get(key,
default)` becomes `field.getD default`.  `intensity_range` is a nested
dict with optional "min"/"max"; a missing "max" defaults to `float('inf')`
in the source, modelled as `none` in the range bound. -/

structure RuleParams where
  pmin : Option ℚ := none
  pmax : Option ℚ := none
  allowed_sources : Option (List String) := none
  allowed_categories : Option (List String) := none
  z_score_threshold : Option ℚ := none
  tolerance : Option ℚ := none
  allowed_patterns : Option (List String) := none
  required_fields : Option (List String) := none
  max_decimal_places : Option Nat := none
  relationship : Option String := none
  fields : Option (List String) := none
  intensity_range : Option (Option ℚ × Option ℚ) := none
deriving DecidableEq

/-- `ValidationRule` (engine.py).  `description`, `citation`,
`error_message` and `suggested_fixes` are carried verbatim into outcomes
and read by no claim; they are omitted. -/
structure Rule where
  rule_name : String
  indicator : String
  validation_type : String
  severity : String
  params : RuleParams
deriving DecidableEq

/-- `NormalizedRecord` (engine.py).  `metadata: Dict[str, Any]` is modelled
as a string-valued dict (the engine only reads string entries from it). -/
structure NRecord where
  id : Nat
  indicator : String
  value : ℚ
  unit : String
  original_value : ℚ
  original_unit : String
  facility_id : Option String := none
  reporting_period : Option String := none
  metadata : List (String × String) := []
deriving DecidableEq

/-- `ValidationResult` (engine.py) minus the formatted `message`,
`citation`, `suggested_fixes` and `timestamp` fields, which no claim
reads.  The second component of `expected_range` is `none` exactly where
the source stores `float('inf')` (correlation rules with no "max"). -/
structure VResult where
  data_id : Nat
  rule_name : String
  is_valid : Bool
  severity : String
  actual_value : Option ℚ := none
  expected_range : Option (ℚ × Option ℚ) := none
deriving DecidableEq

/-- An engine: the loaded `rules` dict, industry → rule-key → rule, in
insertion order. -/
abbrev Engine := List (String × List (String × Rule))

/-- The ordered rule list of one industry (`rules_index[industry]`;
the index lists an industry's rules in rules-dict insertion order). -/
def industryRulesOf (E : Engine) (industry : String) : List Rule :=
  ((alGet E industry).getD []).map (·.2)

/-- `rules_index[f"{industry}:{indicator}"]`: rules of the industry whose
(non-empty) indicator equals `indicator`, in insertion order; a missing
index key behaves as the empty list. -/
def indexIndicatorRules (E : Engine) (industry indicator : String) : List Rule :=
  (industryRulesOf E industry).filter
    (fun r => r.indicator != "" && r.indicator == indicator)

/-- `_get_applicable_rules`: exact indicator matches first, then all
industry rules whose indicator matches or is empty (wildcard), skipping
structural duplicates (`rule not in rules`). -/
def getApplicableRules (E : Engine) (industry indicator : String) : List Rule :=
  (industryRulesOf E industry).foldl
    (fun acc r =>
      if (r.indicator == indicator || r.indicator == "") && !(acc.contains r)
      then acc ++ [r] else acc)
    (indexIndicatorRules E industry indicator)

/-- `range_check`.  Python truthiness quirk kept: the bound tuple is
recorded only when the other bound is present and non-zero. -/
def range_check (value : ℚ) (rule : Rule) (data_id : Nat) : Option VResult :=
  let pm := rule.params.pmin
  let px := rule.params.pmax
  let belowMin := match pm with
    | some mn => decide (value < mn)
    | none => false
  if belowMin then
    some { data_id := data_id, rule_name := rule.rule_name, is_valid := false,
           severity := rule.severity, actual_value := some value,
           expected_range := match px with
             | some mx => if mx = 0 then none else some (pm.getD 0, some mx)
             | none => none }
  else
    let aboveMax := match px with
      | some mx => decide (value > mx)
      | none => false
    if aboveMax then
      some { data_id := data_id, rule_name := rule.rule_name, is_valid := false,
             severity := rule.severity, actual_value := some value,
             expected_range := match pm with
               | some mn => if mn = 0 then none else some (mn, px)
               | none => none }
    else none

/-- `category_check`: case-insensitive membership of the value in the
allow-list; `allowed_sources or allowed_categories` keeps Python `or`
semantics (an empty first list falls through to the second). -/
def category_check (value : String) (rule : Rule) (data_id : Nat) :
    Option VResult :=
  let asrc := rule.params.allowed_sources.getD []
  let acat := rule.params.allowed_categories.getD []
  let allowed := if asrc.isEmpty then acat else asrc
  if (allowed.map String.toLower).contains value.toLower then none
  else
    some { data_id := data_id, rule_name := rule.rule_name, is_valid := false,
           severity := rule.severity }

/-- `statistics.mean`. -/
def pyMean (xs : List ℚ) : ℚ := xs.sum / xs.length

/-- `statistics.stdev` squared: the SAMPLE variance, with Bessel's n−1
divisor.  (The standard deviation itself is irrational in general; the
engine only compares `abs((v-mean)/stdev)` with a threshold and tests
`stdev == 0`, both of which are decided exactly on the variance.) -/
def sampleVar (xs : List ℚ) : ℚ :=
  (xs.map (fun x => (x - pyMean xs) ^ 2)).sum / ((xs.length : ℚ) - 1)

/-- The z-score test `abs((value - mean) / stdev) > threshold`, decided
without square roots: for variance > 0 and threshold ≥ 0 it is equivalent
to `(value - mean)² > threshold² · variance` (proved rigorously in
`zFlag_iff_real_zscore` below); a negative threshold is always exceeded. -/
def zFlag (v mean variance threshold : ℚ) : Bool :=
  if threshold < 0 then true else decide ((v - mean) ^ 2 > threshold ^ 2 * variance)

/-- `outlier_detection`: needs ≥ 3 samples, flags values whose z-score
against the sample mean/stdev exceeds `z_score_threshold` (default 3.0);
a zero stdev flags nothing.  The `expected_range` stored by the source is
`(mean − k·stdev, mean + k·stdev)`, irrational in general, hence left
`none` here; no claim reads it. -/
def outlier_detection (values : List (Nat × ℚ)) (rule : Rule) : List VResult :=
  if values.length < 3 then []
  else
    let threshold := rule.params.z_score_threshold.getD 3
    let nums := values.map (·.2)
    let variance := if nums.length > 1 then sampleVar nums else 0
    if variance = 0 then []
    else
      values.filterMap (fun p =>
        if zFlag p.2 (pyMean nums) variance threshold then
          some { data_id := p.1, rule_name := rule.rule_name, is_valid := false,
                 severity := rule.severity, actual_value := some p.2 }
        else none)

/-- `temporal_consistency`: an empty monthly dict passes; otherwise the
relative difference is `|Σmonthly| / 1` when the annual total is zero and
`|Σmonthly − annual| / annual` otherwise — division by the SIGNED annual
total, exactly as in the source. -/
def temporal_consistency (monthly_data : List (String × ℚ)) (annual_total : ℚ)
    (rule : Rule) (data_id : Nat) : Option VResult :=
  if monthly_data.isEmpty then none
  else
    let monthly_sum := (monthly_data.map (·.2)).sum
    let tolerance := rule.params.tolerance.getD (2/100)
    let diff_pct :=
      if annual_total = 0 then pyAbs monthly_sum / 1
      else pyAbs (monthly_sum - annual_total) / annual_total
    if diff_pct > tolerance then
      some { data_id := data_id, rule_name := rule.rule_name, is_valid := false,
             severity := rule.severity, actual_value := some monthly_sum,
             expected_range := some (annual_total * (1 - tolerance),
                                     some (annual_total * (1 + tolerance))) }
    else none

/-- Python `needle in hay` on strings (substring containment). -/
def pySubstr (needle hay : String) : Bool :=
  decide (needle.toList <:+: hay.toList)

/-- `pattern_match`: some accepted fragment must occur in the value. -/
def pattern_match (value : String) (rule : Rule) (data_id : Nat) :
    Option VResult :=
  let pats := rule.params.allowed_patterns.getD []
  if pats.any (fun p => pySubstr p value) then none
  else
    some { data_id := data_id, rule_name := rule.rule_name, is_valid := false,
           severity := rule.severity }

/-- Whether `record_dict.get(field)` is `None`, `""` or `[]` after
`record_dict = record.model_dump(); record_dict.update(record.metadata)`:
metadata entries shadow model fields; numeric and id fields are never
missing; optional string fields are missing when absent or empty; an
unknown key reads `None`. -/
def fieldMissing (r : NRecord) (f : String) : Bool :=
  match alGet r.metadata f with
  | some v => v == ""
  | none =>
    if f == "id" then false
    else if f == "indicator" then r.indicator == ""
    else if f == "value" then false
    else if f == "unit" then r.unit == ""
    else if f == "original_value" then false
    else if f == "original_unit" then r.original_unit == ""
    else if f == "facility_id" then r.facility_id.getD "" == ""
    else if f == "reporting_period" then r.reporting_period.getD "" == ""
    else if f == "metadata" then false
    else true

/-- `null_check`: fails when any configured required field is missing. -/
def null_check (r : NRecord) (rule : Rule) : Option VResult :=
  let required := rule.params.required_fields.getD []
  let missing := required.filter (fieldMissing r)
  if missing.isEmpty then none
  else
    some { data_id := r.id, rule_name := rule.rule_name, is_valid := false,
           severity := rule.severity }

/-- Decimal places left of `f"{value:.10f}".rstrip('0')`: strip up to ten
trailing zero digits off the 10-decimal fixed-point rendering.  The
rounding of the rendering is modelled as round-to-nearest on the exact
rational. -/
def stripDecimals : Int → Nat → Nat
  | _, 0 => 0
  | s, k + 1 => if s % 10 = 0 then stripDecimals (s / 10) k else k + 1

def decimalPlaces (q : ℚ) : Nat := stripDecimals (round (q * 10 ^ 10)) 10

/-- `precision_check`: decimal-place count must not exceed
`max_decimal_places` (default 2). -/
def precision_check (value : ℚ) (rule : Rule) (data_id : Nat) :
    Option VResult :=
  let maxd := rule.params.max_decimal_places.getD 2
  if decimalPlaces value > maxd then
    some { data_id := data_id, rule_name := rule.rule_name, is_valid := false,
           severity := rule.severity, actual_value := some value }
  else none

/-- `_execute_validation`: dispatch one rule on one record.  `outlier`
and `cross_field` rules are deliberately skipped here (handled in the
batch pass); an unknown type is skipped too. -/
def execute_validation (r : NRecord) (rule : Rule) : Option VResult :=
  match rule.validation_type with
  | "range" => range_check r.value rule r.id
  | "category_check" =>
      category_check ((alGet r.metadata "source_category").getD "") rule r.id
  | "outlier" => none
  | "pattern_match" => pattern_match r.unit rule r.id
  | "null_check" => null_check r rule
  | "precision_check" => precision_check r.value rule r.id
  | "cross_field" => none
  | _ => none

/-- `validate_record`: run every applicable rule (falling back to the
`cross_industry` bucket when the industry has none applicable), keeping
only failures. -/
def validate_record (E : Engine) (r : NRecord) (industry : String) :
    List VResult :=
  let applicable := getApplicableRules E industry r.indicator
  let applicable :=
    if applicable.isEmpty then getApplicableRules E "cross_industry" r.indicator
    else applicable
  applicable.filterMap (execute_validation r)

/-- The indicator key used to group an entity snapshot:
`indicator.lower().replace(" ", "_")`. -/
def normKey (s : String) : String := s.toLower.replace " " "_"

/-- `_validate_sum_relationship`: all but the last configured field are
components, the last is the total; fails when the relative difference of
their sums exceeds the tolerance (default 2%), dividing by the signed
total (by 1 when the total is 0). -/
def validate_sum_relationship (byInd : List (String × NRecord)) (rule : Rule) :
    Option VResult :=
  let fields := rule.params.fields.getD []
  let tolerance := rule.params.tolerance.getD (2/100)
  if fields.length < 2 then none
  else
    let componentFields := fields.dropLast.map normKey
    let totalField := normKey ((fields.getLast?).getD "")
    let comps := componentFields.filterMap (fun f => alGet byInd f)
    let componentSum := (comps.map (·.value)).sum
    let dataId := comps.head?.map (·.id)
    match alGet byInd totalField with
    | none => none
    | some totalRec =>
      let totalValue := totalRec.value
      let diffPct :=
        if totalValue = 0 then pyAbs componentSum / 1
        else pyAbs (componentSum - totalValue) / totalValue
      if diffPct > tolerance then
        some { data_id := dataId.getD totalRec.id, rule_name := rule.rule_name,
               is_valid := false, severity := rule.severity,
               actual_value := some componentSum,
               expected_range := some (totalValue * (1 - tolerance),
                                       some (totalValue * (1 + tolerance))) }
      else none

/-- `_validate_subset_relationship`: the last configured field is the
superset; the first component found to exceed `superset · (1 + tolerance)`
(default tolerance 0) fails. -/
def validate_subset_relationship (byInd : List (String × NRecord))
    (rule : Rule) : Option VResult :=
  let fields := rule.params.fields.getD []
  let tolerance := rule.params.tolerance.getD 0
  if fields.length < 2 then none
  else
    let subsetFields := fields.dropLast.map normKey
    let supersetField := normKey ((fields.getLast?).getD "")
    match alGet byInd supersetField with
    | none => none
    | some sup =>
      subsetFields.findSome? (fun f =>
        match alGet byInd f with
        | some r =>
          if r.value > sup.value * (1 + tolerance) then
            some { data_id := r.id, rule_name := rule.rule_name,
                   is_valid := false, severity := rule.severity,
                   actual_value := some r.value,
                   expected_range := some (0, some sup.value) }
          else none
        | none => none)

/-- `_validate_correlation_relationship`: the ratio of the first two
configured fields must lie in the configured window; skipped when the
divisor is 0 or when no (non-empty) `intensity_range` is configured.  A
missing "max" is `float('inf')`, modelled as `none`. -/
def validate_correlation_relationship (byInd : List (String × NRecord))
    (rule : Rule) : Option VResult :=
  let fields := rule.params.fields.getD []
  if fields.length < 2 then none
  else
    let f1 := normKey ((fields.head?).getD "")
    let f2 := normKey ((fields[1]?).getD "")
    match alGet byInd f1, alGet byInd f2 with
    | some r1, some r2 =>
      if r2.value = 0 then none
      else
        let intensity := r1.value / r2.value
        match rule.params.intensity_range with
        | none => none
        | some (mn?, mx?) =>
          let minIntensity := mn?.getD 0
          let outside :=
            decide (intensity < minIntensity) ||
            (match mx? with
             | some mx => decide (intensity > mx)
             | none => false)
          if outside then
            some { data_id := r1.id, rule_name := rule.rule_name,
                   is_valid := false, severity := rule.severity,
                   actual_value := some intensity,
                   expected_range := some (minIntensity, mx?) }
          else none
    | _, _ => none

/-- `validate_cross_field_consistency`: group the snapshot by normalized
indicator key (dict build: later records with the same key overwrite),
then run every rule of the `cross_field` bucket by relationship kind. -/
def validate_cross_field_consistency (E : Engine) (records : List NRecord) :
    List VResult :=
  let byInd := records.foldl
    (fun acc r => pyDictSet acc (normKey r.indicator) r) []
  let cfRules := ((alGet E "cross_field").getD []).map (·.2)
  cfRules.foldl
    (fun acc rule =>
      match rule.params.relationship with
      | some "sum" => acc ++ (validate_sum_relationship byInd rule).toList
      | some "subset" => acc ++ (validate_subset_relationship byInd rule).toList
      | some "correlation" =>
          acc ++ (validate_correlation_relationship byInd rule).toList
      | _ => acc)
    []

/-- `validate_scope_totals`: scope_1 + scope_2 (+ scope_3 when present)
against the reported total, tolerance 2% by default.  On the failing
branch the source constructs `data_id=uuid4()`, but `uuid4` is never
imported in engine.py (only `UUID` is), so Python raises
`NameError: name 'uuid4' is not defined` before any outcome is built. -/
def validate_scope_totals (scope_1 scope_2 : ℚ) (scope_3 : Option ℚ)
    (total : ℚ) (tolerance : ℚ := 2/100) : Except PyError (Option VResult) :=
  let scope_sum :=
    match scope_3 with
    | some s3 => scope_1 + scope_2 + s3
    | none => scope_1 + scope_2
  let diff_pct :=
    if total = 0 then pyAbs scope_sum / 1
    else pyAbs (scope_sum - total) / total
  if diff_pct > tolerance then Except.error (PyError.nameError "uuid4")
  else Except.ok none

/-- `_get_outlier_rule`: the first `outlier`-typed rule of the
`cross_industry` bucket.  The `industry` argument is accepted but, as in
the source, never used. -/
def get_outlier_rule (E : Engine) (industry : String) : Option Rule :=
  (((alGet E "cross_industry").getD []).map (·.2)).find?
    (fun r => r.validation_type == "outlier")

/-- The per-batch results dict, data_id → outcomes, in insertion order. -/
abbrev BatchResults := List (Nat × List VResult)

/-- Dict assignment `results[data_id] = record_results`. -/
def dictSetNat (d : BatchResults) (k : Nat) (v : List VResult) : BatchResults :=
  match d with
  | [] => [(k, v)]
  | (k', vs) :: rest =>
    if k' = k then (k, v) :: rest else (k', vs) :: dictSetNat rest k v

/-- `results.setdefault(data_id, []).append(result)` as done by the two
cross-record passes. -/
def dictAppendNat (d : BatchResults) (k : Nat) (v : VResult) : BatchResults :=
  match d with
  | [] => [(k, [v])]
  | (k', vs) :: rest =>
    if k' = k then (k', vs ++ [v]) :: rest else (k', vs) :: dictAppendNat rest k v

/-- `validate_batch`: per-record validation, then one outlier pass (only
when `_get_outlier_rule` finds a rule and there are ≥ 3 records), then one
cross-field pass; cross-record outcomes are appended under their data_id. -/
def validate_batch (E : Engine) (records : List NRecord) (industry : String) :
    BatchResults :=
  let phase1 := records.foldl
    (fun acc r =>
      let rr := validate_record E r industry
      if rr.isEmpty then acc else dictSetNat acc r.id rr)
    []
  let phase2 :=
    match get_outlier_rule E industry with
    | some orule =>
      if records.length ≥ 3 then
        (outlier_detection (records.map (fun r => (r.id, r.value))) orule).foldl
          (fun acc res => dictAppendNat acc res.data_id res) phase1
      else phase1
    | none => phase1
  (validate_cross_field_consistency E records).foldl
    (fun acc res => dictAppendNat acc res.data_id res) phase2

/-- All outcomes of a batch run, flattened in dict order. -/
def batchAll (b : BatchResults) : List VResult := (b.map (·.2)).flatten

/-! ## Unit normalizer (src/normalization/normalizer.py)

The conversion-factors configuration is a JSON dict
category → {base_unit, conversions: unit → {factor|null, source, formula}}.
The `formula` strings are documentation only and read by no claim; they
are omitted from the embedded records wherever they would require float
formatting to build. -/

/-- One entry of a category's `conversions` dict. -/
structure ConvInfo where
  factor : Option ℚ
  source : String
deriving DecidableEq

/-- One unit category of the taxonomy. -/
structure CategoryData where
  base_unit : String
  conversions : List (String × ConvInfo)
deriving DecidableEq

/-- The loaded `conversion_data` dict, in insertion order. -/
abbrev Taxonomy := List (String × CategoryData)

/-- `_build_unit_lookup`: unit → (category, base_unit), the base unit
first, then every convertible unit, category by category; a unit named by
several categories keeps the last write, as with a Python dict. -/
def unitLookup (T : Taxonomy) : List (String × (String × String)) :=
  T.foldl
    (fun acc cd =>
      let acc := pyDictSet acc cd.2.base_unit (cd.1, cd.2.base_unit)
      cd.2.conversions.foldl
        (fun acc2 cu => pyDictSet acc2 cu.1 (cd.1, cd.2.base_unit)) acc)
    []

/-- Categories measuring absolute quantities, for which negative values
are rejected. -/
def absoluteCategories : List String :=
  ["energy", "mass", "volume", "emissions", "area", "power"]

/-- `NormalizationResult` minus the `formula` string. -/
structure NormalizationResult where
  original_value : ℚ
  original_unit : String
  normalized_value : ℚ
  normalized_unit : String
  conversion_factor : Option ℚ
  conversion_source : String
deriving DecidableEq

/-- `normalize(value, from_unit, category=None)`: resolve the category
(via the unit lookup when no hint is given), reject negative values for
absolute categories, return identity when already in the base unit, else
apply the category's stored linear factor; a missing unit raises
`UnitNotFoundError`, a non-linear (null) factor raises
`InvalidValueError`. -/
def normalize (T : Taxonomy) (value : ℚ) (from_unit : String)
    (category : Option String := none) : Except PyError NormalizationResult :=
  let resolved : Except PyError (String × String) :=
    match category with
    | none =>
      match alGet (unitLookup T) from_unit with
      | none => Except.error PyError.unitNotFound
      | some cb => Except.ok cb
    | some cat =>
      match alGet T cat with
      | none => Except.error PyError.unitNotFound
      | some data => Except.ok (cat, data.base_unit)
  match resolved with
  | Except.error e => Except.error e
  | Except.ok (cat, base_unit) =>
    if value < 0 && absoluteCategories.contains cat then
      Except.error PyError.invalidValue
    else if from_unit = base_unit then
      Except.ok { original_value := value, original_unit := from_unit,
                  normalized_value := value, normalized_unit := base_unit,
                  conversion_factor := some 1,
                  conversion_source := "No conversion needed" }
    else
      match alGet T cat with
      | none => Except.error PyError.keyError
      | some data =>
        match alGet data.conversions from_unit with
        | none => Except.error PyError.unitNotFound
        | some info =>
          match info.factor with
          | none => Except.error PyError.invalidValue
          | some f =>
            Except.ok { original_value := value, original_unit := from_unit,
                        normalized_value := value * f,
                        normalized_unit := base_unit,
                        conversion_factor := some f,
                        conversion_source := info.source }

/-- `ConversionFactor` minus the `formula` string (built from a float). -/
structure ConversionFactor where
  factor : Option ℚ
  source : String
deriving DecidableEq

/-- One leg of a composite conversion: the factor of `u` towards its
category's base unit, with its source citation, read from the category's
`conversions` dict; the base unit itself is factor 1.  A missing entry is
Python's `KeyError`, a null factor `InvalidValueError`. -/
def legFactor (conversions : List (String × ConvInfo)) (u base : String) :
    Except PyError (ℚ × String) :=
  if u = base then Except.ok (1, "Base unit")
  else
    match alGet conversions u with
    | none => Except.error PyError.keyError
    | some info =>
      match info.factor with
      | none => Except.error PyError.invalidValue
      | some f => Except.ok (f, info.source)

/-- `get_conversion_factor(from_unit, to_unit)`: both units must be known
and of the same category (else `CategoryMismatchError`); identity when
equal; otherwise the composite factor `factor(from→base) / factor(to→base)`
(a zero divisor would raise `ZeroDivisionError` in Python and is modelled
as an error). -/
def get_conversion_factor (T : Taxonomy) (from_unit to_unit : String) :
    Except PyError ConversionFactor :=
  match alGet (unitLookup T) from_unit with
  | none => Except.error PyError.unitNotFound
  | some (from_category, from_base) =>
    match alGet (unitLookup T) to_unit with
    | none => Except.error PyError.unitNotFound
    | some (to_category, to_base) =>
      if from_category ≠ to_category then Except.error PyError.categoryMismatch
      else if from_unit = to_unit then
        Except.ok { factor := some 1, source := "Identity conversion" }
      else
        match alGet T from_category with
        | none => Except.error PyError.keyError
        | some data =>
          match legFactor data.conversions from_unit from_base with
          | Except.error e => Except.error e
          | Except.ok (ff, fs) =>
            match legFactor data.conversions to_unit to_base with
            | Except.error e => Except.error e
            | Except.ok (tf, ts) =>
              if tf = 0 then Except.error PyError.zeroDivision
              else Except.ok { factor := some (ff / tf),
                               source := fs ++ ", " ++ ts }

/-! ## Validation service, review workflow (src/validation/service.py)

The relational store is modelled as in-memory rows: `normalized_data`
rows carry (id, upload_id); `validation_results` rows carry the fields the
review workflow reads and writes.  Ids are primary keys; `.first()` on an
id-filtered query is modelled by updating the first matching row.
Timestamps (`updated_at`) and audit-log inserts change no data any claim
reads and are omitted. -/

/-- The `Severity` enumeration of common/models.py. -/
inductive Severity
  | error
  | warning
deriving DecidableEq

/-- One `validation_results` row, restricted to the fields the review
workflow touches.  `reviewed`/`reviewer_notes` are the attributes the
service reads and writes on these rows. -/
structure Outcome where
  id : Nat
  data_id : Nat
  rule_name : String
  severity : Severity
  is_valid : Bool
  reviewed : Bool
  reviewer_notes : Option String
deriving DecidableEq

/-- One `normalized_data` row (keys only). -/
structure NormRow where
  id : Nat
  upload_id : Nat
deriving DecidableEq

/-- The database state seen by the review workflow. -/
structure Store where
  normalized : List NormRow
  outcomes : List Outcome
deriving DecidableEq

/-- Update the first outcome row matching the id (the row returned by
`.filter(id == result_id).first()`). -/
def updateFirst (l : List Outcome) (rid : Nat) (f : Outcome → Outcome) :
    List Outcome :=
  match l with
  | [] => []
  | o :: rest =>
    if o.id = rid then f o :: rest else o :: updateFirst rest rid f

/-- `mark_error_as_reviewed(result_id, reviewer, notes)`: raises
`ValueError` when no such outcome exists; otherwise sets `reviewed=True`
and `reviewer_notes=notes` — for any severity, and with no check that the
notes are non-empty.  The reviewer name goes only to the audit log. -/
def mark_error_as_reviewed (st : Store) (result_id : Nat)
    (reviewer notes : String) : Except PyError Store :=
  match st.outcomes.find? (fun o => o.id == result_id) with
  | none => Except.error PyError.valueError
  | some _ =>
    Except.ok { st with outcomes :=
      (updateFirst st.outcomes result_id
        (fun o => { o with reviewed := true, reviewer_notes := some notes })) }

/-- `suppress_warning(result_id, reason, reviewer)`: raises `ValueError`
when no such outcome exists or when its severity is `error` — the check
precedes every mutation, so a rejected outcome is left untouched;
otherwise sets `reviewed=True` and prefixed notes "SUPPRESSED: reason". -/
def suppress_warning (st : Store) (result_id : Nat)
    (reason reviewer : String) : Except PyError Store :=
  match st.outcomes.find? (fun o => o.id == result_id) with
  | none => Except.error PyError.valueError
  | some o =>
    if o.severity = Severity.error then Except.error PyError.valueError
    else
      Except.ok { st with outcomes :=
        (updateFirst st.outcomes result_id
          (fun o => { o with reviewed := true,
                             reviewer_notes := some ("SUPPRESSED: " ++ reason) })) }

/-- `bulk_review_errors`: mark each id in turn, counting successes and
skipping ids whose `mark_error_as_reviewed` raised `ValueError`. -/
def bulk_review_errors (st : Store) (result_ids : List Nat)
    (reviewer notes : String) : Store × Nat :=
  result_ids.foldl
    (fun acc rid =>
      match mark_error_as_reviewed acc.1 rid reviewer notes with
      | Except.ok st' => (st', acc.2 + 1)
      | Except.error _ => acc)
    (st, 0)

/-- The join-and-filter of `get_unreviewed_errors`: outcome rows joined to
a normalized row of the upload, with severity error, invalid, and not yet
reviewed. -/
def unreviewedErrorRows (st : Store) (upload_id : Nat) : List Outcome :=
  st.outcomes.filter (fun o =>
    st.normalized.any (fun nd => nd.id == o.data_id && nd.upload_id == upload_id)
    && o.severity == Severity.error
    && o.is_valid == false
    && o.reviewed == false)

/-- Stable insertion into a list sorted by rule name, modelling the SQL
`ORDER BY rule_name` (tie order among equal keys is unspecified by SQL;
any stable order is a faithful model). -/
def insertByRule (o : Outcome) : List Outcome → List Outcome
  | [] => [o]
  | x :: xs =>
    if x.rule_name ≤ o.rule_name then x :: insertByRule o xs else o :: x :: xs

def sortByRule (l : List Outcome) : List Outcome :=
  l.foldr insertByRule []

/-- `get_unreviewed_errors(upload_id)`: the unreviewed error rows of the
upload, ordered by rule name.  (Serialization to dicts keeps the id and
changes no content.) -/
def get_unreviewed_errors (st : Store) (upload_id : Nat) : List Outcome :=
  sortByRule (unreviewedErrorRows st upload_id)

/-- Python `round(x, 2)`, on the exact rational.  (CPython rounds the
nearest double half-to-even; the models differ only at exact `.005`
midpoints of the binary value and both are monotone, which is all any
claim uses.) -/
def round2 (q : ℚ) : ℚ := (round (q * 100) : ℤ) / 100

/-- `calculate_final_pass_rate(upload_id)` =
(total − #records with an unreviewed error) / total × 100, rounded to two
decimals; 100.0 when the upload has no records. -/
def calculate_final_pass_rate (st : Store) (upload_id : Nat) : ℚ :=
  let total := (st.normalized.filter (fun nd => nd.upload_id == upload_id)).length
  if total = 0 then 100
  else
    let withUnreviewed :=
      ((unreviewedErrorRows st upload_id).map (·.data_id)).dedup
    round2 (((total : ℚ) - withUnreviewed.length) / total * 100)

deriving instance DecidableEq for Except

/-! ## Concrete fixtures used by counterexamples and witnesses -/

/-- A rule with every parameter at its default. -/
def emptyParams : RuleParams := {}

/-- A cross-industry outlier rule relying on the default threshold 3.0. -/
def outlierRule : Rule :=
  { rule_name := "outlier_check", indicator := "", validation_type := "outlier",
    severity := "warning", params := emptyParams }

/-- A temporal-consistency rule relying on the default tolerance 2%. -/
def temporalRule : Rule :=
  { rule_name := "monthly_sum_equals_annual", indicator := "",
    validation_type := "temporal", severity := "warning",
    params := emptyParams }

/-! ## Spec-side formulas, for refinement comparisons only.
These two definitions follow the WORDING of the specification, not the
source, and are compared against the source-derived definitions above. -/

/-- Spec wording for the temporal check: fails when
`|Σmonthly − annual| / max(|annual|, 1)` exceeds the tolerance. -/
def spec_temporal_fails (monthly : List (String × ℚ)) (annual tol : ℚ) : Bool :=
  decide (pyAbs ((monthly.map (·.2)).sum - annual) / max (pyAbs annual) 1 > tol)

/-- Spec wording for the outlier pass precondition: an outlier rule exists
for the GIVEN industry. -/
def spec_outlier_rule_exists (E : Engine) (industry : String) : Bool :=
  (industryRulesOf E industry).any (fun r => r.validation_type == "outlier")

/-! ## C1 — scope-totals validation -/

/-- C1: with scope_1=100, scope_2=50, scope_3=30 the check passes at
total=180 (no outcome), but at total=200 the code does NOT return the
single error outcome the claim describes: the failing branch evaluates
`uuid4()` although engine.py never imports `uuid4` (its imports bring in
only `UUID`), so Python raises `NameError: name 'uuid4' is not defined`.
The repository's own test `test_validate_scope_totals_invalid` expects a
returned outcome on this branch, so this is a defect of the code, not of
the claim. -/
theorem C1_scope_totals_fail_branch_raises_nameError :
    validate_scope_totals 100 50 (some 30) 180 = Except.ok none ∧
    validate_scope_totals 100 50 (some 30) 200 =
      Except.error (PyError.nameError "uuid4") := by
  constructor <;> norm_num [validate_scope_totals, pyAbs]

/-! ## C10 — category_check with an empty allow-list -/

/-- C10: when a rule's parameters yield an empty effective allow-list
(both `allowed_sources` and `allowed_categories` empty or absent),
`category_check` fails every record, whatever the checked value: the
lower-cased value is never a member of the empty list. -/
theorem C10_category_check_empty_allowlist_always_fails
    (value : String) (rule : Rule) (data_id : Nat)
    (h1 : rule.params.allowed_sources.getD [] = [])
    (h2 : rule.params.allowed_categories.getD [] = []) :
    (category_check value rule data_id).isSome = true := by
  simp [category_check, h1, h2]

/-- Witness for C10 at a concrete rule and value. -/
theorem C10_witness :
    (category_check "renewable" outlierRule 5).isSome = true :=
  C10_category_check_empty_allowlist_always_fails "renewable" outlierRule 5
    (by decide) (by decide)

/-! ## C3 — temporal consistency -/

/-- C3 counterexample: with monthly sum 50 and annual total −100 the
claim's formula `|Σ − annual| / max(|annual|, 1) = 1.5 > 2%` says the
check fails, but the source divides by the SIGNED annual total, making
the relative difference negative, so the check passes (no outcome). -/
theorem C3_counterexample_negative_annual :
    spec_temporal_fails [("jan", 50)] (-100) (2/100) = true ∧
    temporal_consistency [("jan", 50)] (-100) temporalRule 7 = none := by
  constructor <;>
    norm_num [spec_temporal_fails, temporal_consistency, temporalRule,
      emptyParams, pyAbs]

theorem pyAbs_eq_abs (q : ℚ) : pyAbs q = |q| := by
  unfold pyAbs
  rcases lt_or_le q 0 with h | h
  · rw [if_pos h, abs_of_neg h]
  · rw [if_neg (not_lt.mpr h), abs_of_nonneg h]

/-- C3 amended: the denominator is the signed annual total itself, not
`max(|annual|, 1)` (and `1` when the total is zero).  For a positive
annual total the check therefore fails exactly when
`|Σmonthly − annual| > tolerance · annual`; the claim's two concrete
instances hold: monthly sum 11990 against annual 12000 passes at the
default 2% tolerance, monthly sum 10000 against annual 12000 fails. -/
theorem C3_temporal_positive_annual_characterisation
    (monthly : List (String × ℚ)) (annual : ℚ) (rule : Rule) (did : Nat)
    (hannual : 0 < annual) :
    ((temporal_consistency monthly annual rule did).isSome = true ↔
      monthly ≠ [] ∧
      rule.params.tolerance.getD (2/100) * annual <
        |(monthly.map (·.2)).sum - annual|) ∧
    temporal_consistency [("m", 11990)] 12000 temporalRule 1 = none ∧
    (temporal_consistency [("m", 10000)] 12000 temporalRule 2).isSome = true := by
  refine ⟨?_,
    by norm_num [temporal_consistency, temporalRule, emptyParams, pyAbs],
    by norm_num [temporal_consistency, temporalRule, emptyParams, pyAbs]⟩
  have hne : ¬ annual = 0 := ne_of_gt hannual
  rcases eq_or_ne monthly [] with hm | hm
  · subst hm
    simp [temporal_consistency]
  · have hemp : monthly.isEmpty = false := by
      simpa [List.isEmpty_iff] using hm
    simp only [temporal_consistency, hemp, Bool.false_eq_true, if_false,
      if_neg hne, gt_iff_lt, pyAbs_eq_abs, ne_eq, hm, not_false_eq_true,
      true_and]
    rcases lt_or_le (rule.params.tolerance.getD (2/100))
        (|(monthly.map (·.2)).sum - annual| / annual) with hgt | hle
    · rw [if_pos hgt]
      simpa using (lt_div_iff₀ hannual).mp hgt
    · rw [if_neg (not_lt.mpr hle)]
      simpa using not_lt.mpr ((div_le_iff₀ hannual).mp hle)

/-- Witness for C3's characterisation at annual total 12000. -/
theorem C3_witness :
    ((temporal_consistency [("m", 10000)] 12000 temporalRule 2).isSome = true ↔
      [("m", (10000 : ℚ))] ≠ [] ∧
      temporalRule.params.tolerance.getD (2/100) * 12000 <
        |(([("m", (10000 : ℚ))].map (·.2)).sum - 12000)|) ∧
    temporal_consistency [("m", 11990)] 12000 temporalRule 1 = none ∧
    (temporal_consistency [("m", 10000)] 12000 temporalRule 2).isSome = true :=
  C3_temporal_positive_annual_characterisation [("m", 10000)] 12000
    temporalRule 2 (by norm_num)

/-! ## C9 — cross-category conversion is always rejected -/

/-- C9: for any two units known to the taxonomy's unit lookup but
resolving to different categories, `get_conversion_factor` raises
`CategoryMismatchError`; no numeric factor is ever produced for a
cross-category pair, since the mismatch check precedes every factor
computation. -/
theorem C9_cross_category_always_mismatch (T : Taxonomy) (u1 u2 : String)
    (c1 b1 c2 b2 : String)
    (h1 : alGet (unitLookup T) u1 = some (c1, b1))
    (h2 : alGet (unitLookup T) u2 = some (c2, b2))
    (hne : c1 ≠ c2) :
    get_conversion_factor T u1 u2 = Except.error PyError.categoryMismatch := by
  unfold get_conversion_factor
  rw [h1, h2]
  simp [hne]

/-- A two-category taxonomy used by the normalizer witnesses. -/
def T2 : Taxonomy :=
  [("energy", { base_unit := "MWh",
                conversions := [("kWh", { factor := some (1/1000),
                                          source := "SI" })] }),
   ("mass", { base_unit := "tonnes",
              conversions := [("kg", { factor := some (1/1000),
                                       source := "SI" })] })]

/-- Witness for C9: converting kWh (energy) to kg (mass) is rejected. -/
theorem C9_witness :
    get_conversion_factor T2 "kWh" "kg" =
      Except.error PyError.categoryMismatch :=
  C9_cross_category_always_mismatch T2 "kWh" "kg" "energy" "MWh" "mass"
    "tonnes" (by decide) (by decide) (by decide)

/-! ## C7 — round-trip of normalize and get_conversion_factor

A successful lookup hit is a pair that occurs in the association list, and
under unique dict keys the category a lookup value names always reports
that category's own base unit.  These little facts connect the two
functions' independent walks over the taxonomy. -/

theorem alGet_mem {α : Type} {d : List (String × α)} {k : String} {v : α}
    (h : alGet d k = some v) : (k, v) ∈ d := by
  unfold alGet at h
  obtain ⟨p, hp, hv⟩ := Option.map_eq_some'.mp h
  have h1 := List.find?_some hp
  have h2 := List.mem_of_find?_eq_some hp
  have hpk : p = (k, v) := by
    obtain ⟨a, b⟩ := p
    simp only at hv
    simp only [beq_iff_eq] at h1
    simp [h1, hv]
  rwa [hpk] at h2

theorem alGet_of_mem_nodupKeys {α : Type} {d : List (String × α)}
    (hn : (d.map (·.1)).Nodup) {k : String} {v : α} (hm : (k, v) ∈ d) :
    alGet d k = some v := by
  induction d with
  | nil => simp at hm
  | cons p rest ih =>
    simp only [List.map_cons, List.nodup_cons] at hn
    rcases List.mem_cons.mp hm with hp | hrest
    · rw [← hp]
      simp [alGet]
    · have hkne : ¬ p.1 == k := by
        intro hk
        exact hn.1 (by
          simp only [beq_iff_eq] at hk
          rw [hk]
          exact List.mem_map.mpr ⟨(k, v), hrest, rfl⟩)
      have := ih hn.2 hrest
      unfold alGet at this ⊢
      rw [List.find?_cons_of_neg _ (by simpa using hkne)]
      exact this

/-- All values of an association list satisfy a predicate. -/
def AllVals {α : Type} (P : α → Prop) (d : List (String × α)) : Prop :=
  ∀ p ∈ d, P p.2

theorem allVals_pyDictSet {α : Type} {P : α → Prop} {d : List (String × α)}
    {k : String} {v : α} (hd : AllVals P d) (hv : P v) :
    AllVals P (pyDictSet d k v) := by
  induction d with
  | nil =>
    intro p hp
    simp only [pyDictSet, List.mem_singleton] at hp
    rw [hp]
    exact hv
  | cons q rest ih =>
    intro p hp
    obtain ⟨qk, qv⟩ := q
    simp only [pyDictSet] at hp
    by_cases hk : qk = k
    · rw [if_pos hk] at hp
      rcases List.mem_cons.mp hp with h | h
      · rw [h]; exact hv
      · exact hd p (List.mem_cons_of_mem _ h)
    · rw [if_neg hk] at hp
      rcases List.mem_cons.mp hp with h | h
      · rw [h]; exact hd (qk, qv) (List.mem_cons_self _ _)
      · exact ih (fun q hq => hd q (List.mem_cons_of_mem _ hq)) p h

theorem allVals_convFold {P : String × String → Prop}
    (cs : List (String × ConvInfo)) (val : String × String)
    (acc : List (String × (String × String)))
    (hacc : AllVals P acc) (hv : P val) :
    AllVals P (cs.foldl (fun a cu => pyDictSet a cu.1 val) acc) := by
  induction cs generalizing acc with
  | nil => exact hacc
  | cons c rest ih => exact ih _ (allVals_pyDictSet hacc hv)

theorem allVals_unitLookup (T : Taxonomy) :
    AllVals (fun cb => ∃ d, (cb.1, d) ∈ T ∧ d.base_unit = cb.2)
      (unitLookup T) := by
  unfold unitLookup
  have main : ∀ (L : Taxonomy) (acc : List (String × (String × String))),
      AllVals (fun cb => ∃ d, (cb.1, d) ∈ T ∧ d.base_unit = cb.2) acc →
      (∀ cd ∈ L, cd ∈ T) →
      AllVals (fun cb => ∃ d, (cb.1, d) ∈ T ∧ d.base_unit = cb.2)
        (L.foldl (fun acc cd =>
          cd.2.conversions.foldl
            (fun acc2 cu => pyDictSet acc2 cu.1 (cd.1, cd.2.base_unit))
            (pyDictSet acc cd.2.base_unit (cd.1, cd.2.base_unit))) acc) := by
    intro L
    induction L with
    | nil => intro acc hacc _; exact hacc
    | cons cd rest ih =>
      intro acc hacc hsub
      refine ih _ ?_ (fun x hx => hsub x (List.mem_cons_of_mem _ hx))
      have hval : ∃ d, (cd.1, d) ∈ T ∧ d.base_unit = cd.2.base_unit :=
        ⟨cd.2, hsub cd (List.mem_cons_self _ _), rfl⟩
      exact allVals_convFold _ _ _ (allVals_pyDictSet hacc hval) hval
  exact main T [] (by intro p hp; simp at hp) (fun cd hcd => hcd)

/-- Under unique taxonomy keys, a unit-lookup hit `(cat, b)` always
reports the base unit stored for `cat` in the taxonomy itself. -/
theorem lookup_base_consistent {T : Taxonomy}
    (hkeys : (T.map (·.1)).Nodup) {u cat b : String}
    (h : alGet (unitLookup T) u = some (cat, b))
    {data : CategoryData} (hdata : alGet T cat = some data) :
    data.base_unit = b := by
  obtain ⟨d, hd, hb⟩ := allVals_unitLookup T (u, (cat, b)) (alGet_mem h)
  have : alGet T cat = some d := alGet_of_mem_nodupKeys hkeys hd
  rw [hdata] at this
  injection this with hdd
  rw [hdd]
  exact hb

/-- C7: whenever `normalize(v, u)` succeeds and
`get_conversion_factor(u, normalized_unit)` succeeds, the conversion
factor applied to `v` reproduces the normalized value — exactly, in the
rational model of float arithmetic.  The `Nodup` hypothesis states that
taxonomy category names are unique, which holds of any state loaded from
a JSON dict. -/
theorem C7_round_trip (T : Taxonomy) (v : ℚ) (u : String)
    (hkeys : (T.map (·.1)).Nodup)
    (res : NormalizationResult) (cf : ConversionFactor)
    (hn : normalize T v u none = Except.ok res)
    (hc : get_conversion_factor T u res.normalized_unit = Except.ok cf) :
    ∃ f, cf.factor = some f ∧ v * f = res.normalized_value := by
  unfold normalize at hn
  cases hl : alGet (unitLookup T) u with
  | none => rw [hl] at hn; simp at hn
  | some cb =>
    obtain ⟨cat, base⟩ := cb
    rw [hl] at hn
    dsimp only at hn
    by_cases hneg : (decide (v < 0) && absoluteCategories.contains cat) = true
    · rw [if_pos hneg] at hn; simp at hn
    · rw [if_neg hneg] at hn
      by_cases hub : u = base
      · rw [if_pos hub] at hn
        injection hn with h
        subst h
        subst hub
        unfold get_conversion_factor at hc
        dsimp only at hc
        rw [hl] at hc
        dsimp only at hc
        rw [if_neg (by simp)] at hc
        rw [if_pos rfl] at hc
        injection hc with h2
        subst h2
        exact ⟨1, rfl, by simp⟩
      · rw [if_neg hub] at hn
        cases hdata : alGet T cat with
        | none => rw [hdata] at hn; simp at hn
        | some data =>
          rw [hdata] at hn
          dsimp only at hn
          cases hinfo : alGet data.conversions u with
          | none => rw [hinfo] at hn; simp at hn
          | some info =>
            rw [hinfo] at hn
            dsimp only at hn
            cases hfac : info.factor with
            | none => rw [hfac] at hn; simp at hn
            | some f =>
              rw [hfac] at hn
              injection hn with h
              subst h
              dsimp only at hc
              have hbase : data.base_unit = base :=
                lookup_base_consistent hkeys hl hdata
              unfold get_conversion_factor at hc
              rw [hl] at hc
              cases hlb : alGet (unitLookup T) base with
              | none => rw [hlb] at hc; simp at hc
              | some cb2 =>
                obtain ⟨c2, b2⟩ := cb2
                rw [hlb] at hc
                dsimp only at hc
                by_cases hcc : cat = c2
                · subst hcc
                  rw [if_neg (by simp)] at hc
                  rw [if_neg hub] at hc
                  rw [hdata] at hc
                  dsimp only at hc
                  have hb2 : data.base_unit = b2 :=
                    lookup_base_consistent hkeys hlb hdata
                  have hleg1 : legFactor data.conversions u base =
                      Except.ok (f, info.source) := by
                    unfold legFactor
                    rw [if_neg hub, hinfo]
                    dsimp only
                    rw [hfac]
                  have hleg2 : legFactor data.conversions base b2 =
                      Except.ok (1, "Base unit") := by
                    have hbb : base = b2 := by rw [← hbase, hb2]
                    unfold legFactor
                    rw [if_pos hbb]
                  rw [hleg1, hleg2] at hc
                  dsimp only at hc
                  rw [if_neg one_ne_zero] at hc
                  injection hc with h2
                  subst h2
                  exact ⟨f / 1, rfl, by rw [div_one]⟩
                · rw [if_pos hcc] at hc
                  simp at hc

/-- The concrete normalization of 5000 kWh to MWh. -/
def res7 : NormalizationResult :=
  { original_value := 5000, original_unit := "kWh",
    normalized_value := 5000 * (1/1000), normalized_unit := "MWh",
    conversion_factor := some (1/1000), conversion_source := "SI" }

/-- The concrete composite factor kWh → MWh. -/
def cf7 : ConversionFactor :=
  { factor := some ((1/1000 : ℚ) / 1), source := "SI, Base unit" }

/-- Witness for C7 at 5000 kWh in the two-category taxonomy. -/
theorem C7_witness :
    ∃ f, cf7.factor = some f ∧ (5000 : ℚ) * f = res7.normalized_value :=
  C7_round_trip T2 5000 "kWh" (by decide) res7 cf7 rfl rfl

/-! ## C2 — outlier detection -/

/-- The outcome `outlier_detection` builds for one flagged sample. -/
def outRes (rule : Rule) (p : Nat × ℚ) : VResult :=
  { data_id := p.1, rule_name := rule.rule_name, is_valid := false,
    severity := rule.severity, actual_value := some p.2 }

/-- C2 counterexample: on `[100,105,98,102,1000,99]` with the default
threshold 3.0 the code flags NOTHING, not "exactly 1000": the z-score of
1000 against the sample standard deviation (`statistics.stdev`, Bessel
n−1) is ≈ 2.04, and even against the population standard deviation the
claim names it would be ≈ 2.24 — with 6 samples no z-score can exceed
(n−1)/√n ≈ 2.04 (sample) or √5 ≈ 2.24 (population), so the claim's
concrete expectation is unsatisfiable at threshold 3. -/
theorem C2_counterexample :
    outlier_detection [(0, 100), (1, 105), (2, 98), (3, 102), (4, 1000), (5, 99)]
      outlierRule = [] := by
  norm_num [outlier_detection, outlierRule, emptyParams, sampleVar, pyMean,
    zFlag, List.filterMap]

theorem sampleVar_nonneg (xs : List ℚ) (h : 2 ≤ xs.length) : 0 ≤ sampleVar xs := by
  unfold sampleVar
  apply div_nonneg
  · apply List.sum_nonneg
    intro x hx
    obtain ⟨y, _, hy⟩ := List.mem_map.mp hx
    rw [← hy]
    positivity
  · have : (2 : ℚ) ≤ xs.length := by exact_mod_cast h
    linarith

theorem zFlag_iff_real_zscore (v m variance t : ℚ) (hv : 0 < variance)
    (ht : 0 ≤ t) :
    zFlag v m variance t = true ↔
      (t : ℝ) < |(v : ℝ) - (m : ℝ)| / Real.sqrt (variance : ℝ) := by
  have hvR : (0 : ℝ) < (variance : ℝ) := by exact_mod_cast hv
  have hs : (0 : ℝ) < Real.sqrt (variance : ℝ) := Real.sqrt_pos.mpr hvR
  have htR : (0 : ℝ) ≤ (t : ℝ) := by exact_mod_cast ht
  unfold zFlag
  rw [if_neg (not_lt.mpr ht)]
  rw [decide_eq_true_eq]
  rw [lt_div_iff₀ hs]
  constructor
  · intro h
    have hQ : ((t ^ 2 * variance : ℚ) : ℝ) < (((v - m) ^ 2 : ℚ) : ℝ) := by
      exact_mod_cast h
    push_cast at hQ
    nlinarith [Real.sq_sqrt hvR.le, Real.sqrt_nonneg (variance : ℝ),
      abs_nonneg ((v : ℝ) - m), sq_abs ((v : ℝ) - m),
      mul_nonneg htR (Real.sqrt_nonneg (variance : ℝ))]
  · intro h
    have hQ : ((t ^ 2 * variance : ℚ) : ℝ) < (((v - m) ^ 2 : ℚ) : ℝ) := by
      push_cast
      nlinarith [Real.sq_sqrt hvR.le, sq_abs ((v : ℝ) - m),
        mul_nonneg htR (Real.sqrt_nonneg (variance : ℝ)),
        abs_nonneg ((v : ℝ) - m)]
    exact_mod_cast hQ

/-- C2 amended: outlier detection needs ≥ 3 samples, uses the SAMPLE
(not population) mean/standard deviation, flags exactly the samples whose
real z-score |v − mean| / √(sample variance) exceeds the (non-negative)
threshold, flags nothing when the variance is 0, and flags nothing on
`[100,105,98,102,1000,99]` at threshold 3.0. -/
theorem C2_amended_characterisation :
    (∀ (values : List (Nat × ℚ)) (rule : Rule) (res : VResult),
      0 ≤ rule.params.z_score_threshold.getD 3 →
      (res ∈ outlier_detection values rule ↔
        3 ≤ values.length ∧ sampleVar (values.map (·.2)) ≠ 0 ∧
        ∃ p ∈ values, res = outRes rule p ∧
          ((rule.params.z_score_threshold.getD 3 : ℚ) : ℝ) <
            |(p.2 : ℝ) - ((pyMean (values.map (·.2)) : ℚ) : ℝ)| /
              Real.sqrt ((sampleVar (values.map (·.2)) : ℚ) : ℝ))) ∧
    outlier_detection [(0, 100), (1, 105), (2, 98), (3, 102), (4, 1000), (5, 99)]
      outlierRule = [] := by
  constructor
  · intro values rule res ht
    by_cases hlen : values.length < 3
    · simp only [outlier_detection, if_pos hlen, List.not_mem_nil, false_iff]
      rintro ⟨h3, -⟩
      omega
    · have h3 : 3 ≤ values.length := by omega
      have h1 : (values.map (·.2)).length > 1 := by
        simp only [List.length_map]
        omega
      have hnn : 0 ≤ sampleVar (values.map (·.2)) :=
        sampleVar_nonneg _ (by simp only [List.length_map]; omega)
      by_cases hvar : sampleVar (values.map (·.2)) = 0
      · simp only [outlier_detection, if_neg hlen, if_pos h1, if_pos hvar,
          List.not_mem_nil, false_iff]
        rintro ⟨-, hv, -⟩
        exact hv hvar
      · have hvpos : 0 < sampleVar (values.map (·.2)) :=
          lt_of_le_of_ne hnn (Ne.symm hvar)
        simp only [outlier_detection, if_neg hlen, if_pos h1, if_neg hvar,
          List.mem_filterMap]
        constructor
        · rintro ⟨p, hp, hsome⟩
          by_cases hz : zFlag p.2 (pyMean (values.map (·.2)))
              (sampleVar (values.map (·.2))) (rule.params.z_score_threshold.getD 3)
          · rw [if_pos hz] at hsome
            injection hsome with hres
            refine ⟨h3, hvar, p, hp, hres.symm, ?_⟩
            exact (zFlag_iff_real_zscore _ _ _ _ hvpos ht).mp hz
          · rw [if_neg hz] at hsome
            exact absurd hsome (by simp)
        · rintro ⟨-, -, p, hp, hres, hzs⟩
          refine ⟨p, hp, ?_⟩
          rw [if_pos ((zFlag_iff_real_zscore _ _ _ _ hvpos ht).mpr hzs)]
          rw [hres]
          rfl
  · norm_num [outlier_detection, outlierRule, emptyParams, sampleVar, pyMean,
      zFlag, List.filterMap]

/-- Witness for C2's characterisation on a 3-sample list. -/
theorem C2_witness :
    (outRes outlierRule (2, 6) ∈
        outlier_detection [(0, 0), (1, 0), (2, 6)] outlierRule ↔
      3 ≤ ([(0, 0), (1, 0), (2, 6)] : List (Nat × ℚ)).length ∧
      sampleVar (([(0, 0), (1, 0), (2, 6)] : List (Nat × ℚ)).map (·.2)) ≠ 0 ∧
      ∃ p ∈ ([(0, 0), (1, 0), (2, 6)] : List (Nat × ℚ)),
        outRes outlierRule (2, 6) = outRes outlierRule p ∧
          ((outlierRule.params.z_score_threshold.getD 3 : ℚ) : ℝ) <
            |(p.2 : ℝ) -
                ((pyMean
                  (([(0, 0), (1, 0), (2, 6)] : List (Nat × ℚ)).map (·.2)) : ℚ) : ℝ)| /
              Real.sqrt
                ((sampleVar
                  (([(0, 0), (1, 0), (2, 6)] : List (Nat × ℚ)).map (·.2)) : ℚ) : ℝ)) :=
  C2_amended_characterisation.1 [(0, 0), (1, 0), (2, 6)] outlierRule
    (outRes outlierRule (2, 6)) (by norm_num [outlierRule, emptyParams])

/-! ## C4 and C8 — reviewer workflow invariants -/

/-- The data-model invariant of the claim: a reviewed outcome carries
non-empty reviewer notes (neither `None` nor `""`). -/
def notesInvariant (st : Store) : Bool :=
  st.outcomes.all (fun o => !o.reviewed || !((o.reviewer_notes.getD "") == ""))

def C4store : Store :=
  { normalized := [{ id := 0, upload_id := 7 }],
    outcomes := [{ id := 1, data_id := 0, rule_name := "r1",
                   severity := Severity.error, is_valid := false,
                   reviewed := false, reviewer_notes := none }] }

def C4storeAfter : Store :=
  { normalized := [{ id := 0, upload_id := 7 }],
    outcomes := [{ id := 1, data_id := 0, rule_name := "r1",
                   severity := Severity.error, is_valid := false,
                   reviewed := true, reviewer_notes := some "" }] }

/-- C4 counterexample: `mark_error_as_reviewed` performs no check on the
notes argument, so calling it with `notes = ""` yields an outcome with
`reviewed = true` and EMPTY `reviewer_notes`, breaking the claimed
invariant; the claim as stated (every reviewed=true-setting operation
preserves it) is therefore false. -/
theorem C4_counterexample :
    notesInvariant C4store = true ∧
    mark_error_as_reviewed C4store 1 "alice" "" = Except.ok C4storeAfter ∧
    notesInvariant C4storeAfter = false := by
  refine ⟨by decide, by decide, by decide⟩

theorem updateFirst_all {P : Outcome → Prop} (l : List Outcome) (rid : Nat)
    (f : Outcome → Outcome) (hl : ∀ o ∈ l, P o) (hf : ∀ o ∈ l, P (f o)) :
    ∀ o ∈ updateFirst l rid f, P o := by
  induction l with
  | nil => intro o ho; simp [updateFirst] at ho
  | cons x rest ih =>
    intro o ho
    unfold updateFirst at ho
    by_cases hx : x.id = rid
    · rw [if_pos hx] at ho
      rcases List.mem_cons.mp ho with h | h
      · rw [h]; exact hf x (List.mem_cons_self _ _)
      · exact hl o (List.mem_cons_of_mem _ h)
    · rw [if_neg hx] at ho
      rcases List.mem_cons.mp ho with h | h
      · rw [h]; exact hl x (List.mem_cons_self _ _)
      · exact ih (fun q hq => hl q (List.mem_cons_of_mem _ hq))
          (fun q hq => hf q (List.mem_cons_of_mem _ hq)) o h

theorem notesOk_of_set {o : Outcome} {notes : String} (hnotes : notes ≠ "") :
    (!({ o with reviewed := true,
                reviewer_notes := some notes } : Outcome).reviewed ||
      !((({ o with reviewed := true,
                   reviewer_notes := some notes } : Outcome).reviewer_notes.getD
          "") == "")) = true := by
  simp [hnotes]

theorem mark_preserves_notesInvariant (st : Store) (rid : Nat)
    (reviewer notes : String) (st' : Store) (hnotes : notes ≠ "")
    (hm : mark_error_as_reviewed st rid reviewer notes = Except.ok st')
    (hinv : notesInvariant st = true) : notesInvariant st' = true := by
  unfold mark_error_as_reviewed at hm
  cases hf : st.outcomes.find? (fun o => o.id == rid) with
  | none => rw [hf] at hm; simp at hm
  | some o =>
    rw [hf] at hm
    injection hm with h
    subst h
    simp only [notesInvariant, List.all_eq_true] at hinv ⊢
    exact updateFirst_all _ _ _ hinv (fun q _ => notesOk_of_set hnotes)

theorem suppress_preserves_notesInvariant (st : Store) (rid : Nat)
    (reason reviewer : String) (st' : Store)
    (hm : suppress_warning st rid reason reviewer = Except.ok st')
    (hinv : notesInvariant st = true) : notesInvariant st' = true := by
  unfold suppress_warning at hm
  cases hf : st.outcomes.find? (fun o => o.id == rid) with
  | none => rw [hf] at hm; simp at hm
  | some o =>
    rw [hf] at hm
    dsimp only at hm
    by_cases hsev : o.severity = Severity.error
    · rw [if_pos hsev] at hm; simp at hm
    · rw [if_neg hsev] at hm
      injection hm with h
      subst h
      simp only [notesInvariant, List.all_eq_true] at hinv ⊢
      refine updateFirst_all _ _ _ hinv (fun q _ => ?_)
      apply notesOk_of_set
      intro hcon
      have hlen : ("SUPPRESSED: " ++ reason).length = 0 := by rw [hcon]; rfl
      rw [String.length_append] at hlen
      have h12 : "SUPPRESSED: ".length = 12 := rfl
      rw [h12] at hlen
      omega

theorem bulk_preserves_notesInvariant (st : Store) (ids : List Nat)
    (reviewer notes : String) (hnotes : notes ≠ "")
    (hinv : notesInvariant st = true) :
    notesInvariant (bulk_review_errors st ids reviewer notes).1 = true := by
  unfold bulk_review_errors
  suffices h : ∀ (acc : Store × Nat), notesInvariant acc.1 = true →
      notesInvariant (ids.foldl
        (fun acc rid =>
          match mark_error_as_reviewed acc.1 rid reviewer notes with
          | Except.ok st' => (st', acc.2 + 1)
          | Except.error _ => acc) acc).1 = true by
    exact h (st, 0) hinv
  induction ids with
  | nil => intro acc hacc; exact hacc
  | cons rid rest ih =>
    intro acc hacc
    refine ih _ ?_
    cases hm : mark_error_as_reviewed acc.1 rid reviewer notes with
    | ok st' =>
      simp only [hm]
      exact mark_preserves_notesInvariant acc.1 rid reviewer notes st' hnotes
        hm hacc
    | error e => simp only [hm]; exact hacc

/-- C4 amended: the invariant "reviewed implies non-empty reviewer_notes"
is preserved by `suppress_warning` unconditionally (its notes always start
with "SUPPRESSED: "), and by `mark_error_as_reviewed` and
`bulk_review_errors` provided the caller passes non-empty notes; the code
itself never enforces non-emptiness. -/
theorem C4_amended_invariant_preservation :
    (∀ (st : Store) (rid : Nat) (reason reviewer : String) (st' : Store),
      suppress_warning st rid reason reviewer = Except.ok st' →
      notesInvariant st = true → notesInvariant st' = true) ∧
    (∀ (st : Store) (rid : Nat) (reviewer notes : String) (st' : Store),
      notes ≠ "" →
      mark_error_as_reviewed st rid reviewer notes = Except.ok st' →
      notesInvariant st = true → notesInvariant st' = true) ∧
    (∀ (st : Store) (ids : List Nat) (reviewer notes : String),
      notes ≠ "" → notesInvariant st = true →
      notesInvariant (bulk_review_errors st ids reviewer notes).1 = true) :=
  ⟨fun st rid reason reviewer st' => suppress_preserves_notesInvariant st rid
      reason reviewer st',
   fun st rid reviewer notes st' hnotes =>
      mark_preserves_notesInvariant st rid reviewer notes st' hnotes,
   fun st ids reviewer notes => bulk_preserves_notesInvariant st ids reviewer
      notes⟩

def C4wstore : Store :=
  { normalized := [{ id := 0, upload_id := 7 }],
    outcomes := [{ id := 1, data_id := 0, rule_name := "r1",
                   severity := Severity.warning, is_valid := false,
                   reviewed := false, reviewer_notes := none }] }

def C4wAfterSuppress : Store :=
  { normalized := [{ id := 0, upload_id := 7 }],
    outcomes := [{ id := 1, data_id := 0, rule_name := "r1",
                   severity := Severity.warning, is_valid := false,
                   reviewed := true,
                   reviewer_notes := some "SUPPRESSED: noise" }] }

def C4wAfterMark : Store :=
  { normalized := [{ id := 0, upload_id := 7 }],
    outcomes := [{ id := 1, data_id := 0, rule_name := "r1",
                   severity := Severity.warning, is_valid := false,
                   reviewed := true, reviewer_notes := some "checked" }] }

/-- Witness for C4's amended preservation at a one-outcome store. -/
theorem C4_witness :
    notesInvariant C4wAfterSuppress = true ∧
    notesInvariant C4wAfterMark = true ∧
    notesInvariant (bulk_review_errors C4wstore [1] "bob" "checked").1 = true :=
  ⟨C4_amended_invariant_preservation.1 C4wstore 1 "noise" "bob"
      C4wAfterSuppress (by decide) (by decide),
   C4_amended_invariant_preservation.2.1 C4wstore 1 "bob" "checked"
      C4wAfterMark (by decide) (by decide) (by decide),
   C4_amended_invariant_preservation.2.2 C4wstore [1] "bob" "checked"
      (by decide) (by decide)⟩

/-- C8: `suppress_warning` raises `ValueError` whenever the addressed
outcome has severity error — the check precedes every mutation, so the
rejected outcome's `reviewed` flag and `reviewer_notes` are untouched —
and it can only succeed on a warning; `mark_error_as_reviewed` succeeds
for any severity whenever the outcome exists. -/
theorem C8_suppress_only_warnings :
    (∀ (st : Store) (rid : Nat) (reason reviewer : String) (o : Outcome),
      st.outcomes.find? (fun x => x.id == rid) = some o →
      o.severity = Severity.error →
      suppress_warning st rid reason reviewer = Except.error PyError.valueError) ∧
    (∀ (st : Store) (rid : Nat) (reason reviewer : String) (st' : Store),
      suppress_warning st rid reason reviewer = Except.ok st' →
      ∃ o, st.outcomes.find? (fun x => x.id == rid) = some o ∧
        o.severity = Severity.warning) ∧
    (∀ (st : Store) (rid : Nat) (reviewer notes : String) (o : Outcome),
      st.outcomes.find? (fun x => x.id == rid) = some o →
      ∃ st', mark_error_as_reviewed st rid reviewer notes = Except.ok st') := by
  refine ⟨?_, ?_, ?_⟩
  · intro st rid reason reviewer o hf hsev
    unfold suppress_warning
    rw [hf]
    dsimp only
    rw [if_pos hsev]
  · intro st rid reason reviewer st' hok
    unfold suppress_warning at hok
    cases hf : st.outcomes.find? (fun x => x.id == rid) with
    | none => rw [hf] at hok; simp at hok
    | some o =>
      rw [hf] at hok
      dsimp only at hok
      by_cases hsev : o.severity = Severity.error
      · rw [if_pos hsev] at hok; simp at hok
      · refine ⟨o, rfl, ?_⟩
        cases hs : o.severity with
        | error => exact absurd hs hsev
        | warning => rfl
  · intro st rid reviewer notes o hf
    refine ⟨{ st with outcomes :=
      (updateFirst st.outcomes rid
        (fun o => { o with reviewed := true,
                           reviewer_notes := some notes })) }, ?_⟩
    unfold mark_error_as_reviewed
    rw [hf]

def C8errOutcome : Outcome :=
  { id := 1, data_id := 0, rule_name := "r1", severity := Severity.error,
    is_valid := false, reviewed := false, reviewer_notes := none }

def C8warnOutcome : Outcome :=
  { id := 2, data_id := 0, rule_name := "r2", severity := Severity.warning,
    is_valid := false, reviewed := false, reviewer_notes := none }

def C8store : Store :=
  { normalized := [{ id := 0, upload_id := 7 }],
    outcomes := [C8errOutcome, C8warnOutcome] }

def C8afterSuppress : Store :=
  { normalized := [{ id := 0, upload_id := 7 }],
    outcomes := [{ id := 1, data_id := 0, rule_name := "r1",
                   severity := Severity.error, is_valid := false,
                   reviewed := false, reviewer_notes := none },
                 { id := 2, data_id := 0, rule_name := "r2",
                   severity := Severity.warning, is_valid := false,
                   reviewed := true,
                   reviewer_notes := some "SUPPRESSED: seasonal" }] }

/-- Witness for C8 on a store holding one error and one warning. -/
theorem C8_witness :
    suppress_warning C8store 1 "noisy" "bob" =
      Except.error PyError.valueError ∧
    (∃ o, C8store.outcomes.find? (fun x => x.id == 2) = some o ∧
      o.severity = Severity.warning) ∧
    (∃ st', mark_error_as_reviewed C8store 1 "bob" "fine" = Except.ok st') :=
  ⟨C8_suppress_only_warnings.1 C8store 1 "noisy" "bob" C8errOutcome
      (by decide) rfl,
   C8_suppress_only_warnings.2.1 C8store 2 "seasonal" "bob" C8afterSuppress
      (by decide),
   C8_suppress_only_warnings.2.2 C8store 1 "bob" "fine" C8errOutcome
      (by decide)⟩

/-! ## C6 — review removes the error and the pass rate is monotone -/

theorem updateFirst_eq_map_of_nodup (l : List Outcome) (rid : Nat)
    (f : Outcome → Outcome) (hn : (l.map (·.id)).Nodup) :
    updateFirst l rid f = l.map (fun o => if o.id = rid then f o else o) := by
  induction l with
  | nil => rfl
  | cons o rest ih =>
    simp only [List.map_cons, List.nodup_cons] at hn
    unfold updateFirst
    by_cases ho : o.id = rid
    · rw [if_pos ho]
      simp only [List.map_cons, if_pos ho]
      congr 1
      have : ∀ q ∈ rest, (if q.id = rid then f q else q) = q := by
        intro q hq
        rw [if_neg]
        intro hcon
        exact hn.1 (by rw [← ho] at hcon; exact hcon ▸
          List.mem_map.mpr ⟨q, hq, hcon.symm ▸ rfl⟩)
      rw [List.map_congr_left this]
      simp
    · rw [if_neg ho]
      simp only [List.map_cons, if_neg ho]
      congr 1
      exact ih hn.2

theorem mem_insertByRule (x o : Outcome) (l : List Outcome) :
    x ∈ insertByRule o l ↔ x = o ∨ x ∈ l := by
  induction l with
  | nil => simp [insertByRule]
  | cons y rest ih =>
    unfold insertByRule
    by_cases hy : y.rule_name ≤ o.rule_name
    · rw [if_pos hy]
      simp only [List.mem_cons, ih]
      tauto
    · rw [if_neg hy]
      simp only [List.mem_cons]

theorem mem_sortByRule (x : Outcome) (l : List Outcome) :
    x ∈ sortByRule l ↔ x ∈ l := by
  unfold sortByRule
  induction l with
  | nil => simp
  | cons y rest ih =>
    simp only [List.foldr_cons, List.mem_cons, mem_insertByRule, ih]

theorem filter_map_update (l : List Outcome) (rid : Nat)
    (f : Outcome → Outcome) (p : Outcome → Bool)
    (hp : ∀ o, p o = true → o.reviewed = false)
    (hf : ∀ o, (f o).reviewed = true) :
    (l.map (fun o => if o.id = rid then f o else o)).filter p =
    (l.filter p).filter (fun o => decide (o.id ≠ rid)) := by
  rw [List.filter_filter]
  induction l with
  | nil => rfl
  | cons o rest ih =>
    simp only [List.map_cons, List.filter_cons]
    by_cases ho : o.id = rid
    · rw [if_pos ho]
      have hrev : p (f o) = false := by
        cases hq : p (f o) with
        | false => rfl
        | true =>
          have h1 := hf o
          rw [hp _ hq] at h1
          exact absurd h1 (by simp)
      have hcond : (decide (o.id ≠ rid) && p o) = false := by simp [ho]
      simp only [hrev, hcond, Bool.false_eq_true, if_false]
      exact ih
    · rw [if_neg ho]
      have hcond : (decide (o.id ≠ rid) && p o) = p o := by simp [ho]
      rw [hcond]
      cases hq : p o with
      | false => simp only [hq, Bool.false_eq_true, if_false]; exact ih
      | true => simp only [hq, if_true]; rw [ih]

theorem round2_mono {a b : ℚ} (h : a ≤ b) : round2 a ≤ round2 b := by
  unfold round2
  have h1 : round (a * 100) ≤ round (b * 100) := by
    rw [round_eq, round_eq]
    exact Int.floor_mono (by linarith)
  have h2 : ((round (a * 100) : ℤ) : ℚ) ≤ ((round (b * 100) : ℤ) : ℚ) := by
    exact_mod_cast h1
  linarith

/-- C6: once `mark_error_as_reviewed` succeeds on an outcome, that
outcome's id no longer appears in `get_unreviewed_errors` for any upload,
and `calculate_final_pass_rate` can only rise or stay equal: the set of
records carrying an unreviewed error shrinks or stays, and the rounding
to two decimals is monotone.  The `Nodup` hypothesis is the primary-key
uniqueness of outcome ids. -/
theorem C6_mark_reviewed_removes_and_pass_rate_monotone
    (st : Store) (rid : Nat) (reviewer notes : String) (upload : Nat)
    (st' : Store)
    (hnodup : (st.outcomes.map (·.id)).Nodup)
    (hok : mark_error_as_reviewed st rid reviewer notes = Except.ok st') :
    (∀ o ∈ get_unreviewed_errors st' upload, o.id ≠ rid) ∧
    calculate_final_pass_rate st upload ≤
      calculate_final_pass_rate st' upload := by
  unfold mark_error_as_reviewed at hok
  cases hf : st.outcomes.find? (fun o => o.id == rid) with
  | none => rw [hf] at hok; simp at hok
  | some o0 =>
    rw [hf] at hok
    injection hok with h
    subst h
    have hmap : updateFirst st.outcomes rid
        (fun o => { o with reviewed := true,
                           reviewer_notes := some notes }) =
        st.outcomes.map (fun o => if o.id = rid then
          ({ o with reviewed := true,
                    reviewer_notes := some notes } : Outcome) else o) :=
      updateFirst_eq_map_of_nodup _ _ _ hnodup
    have hp : ∀ o : Outcome,
        (st.normalized.any
            (fun nd => nd.id == o.data_id && nd.upload_id == upload)
          && o.severity == Severity.error && o.is_valid == false
          && o.reviewed == false) = true → o.reviewed = false := by
      intro o h
      simp only [Bool.and_eq_true, beq_iff_eq] at h
      exact h.2
    have hrows : unreviewedErrorRows
        { st with outcomes := (updateFirst st.outcomes rid
          (fun o => { o with reviewed := true,
                             reviewer_notes := some notes })) } upload =
        (unreviewedErrorRows st upload).filter
          (fun o => decide (o.id ≠ rid)) := by
      unfold unreviewedErrorRows
      dsimp only
      rw [hmap]
      exact filter_map_update st.outcomes rid _ _ hp (fun o => rfl)
    constructor
    · intro o ho
      unfold get_unreviewed_errors at ho
      have ho2 := (mem_sortByRule o _).mp ho
      rw [hrows] at ho2
      have := (List.mem_filter.mp ho2).2
      simpa using this
    · unfold calculate_final_pass_rate
      rw [hrows]
      dsimp only
      by_cases htot :
          (st.normalized.filter (fun nd => nd.upload_id == upload)).length = 0
      · rw [if_pos htot, if_pos htot]
      · rw [if_neg htot, if_neg htot]
        apply round2_mono
        have hsl : ((unreviewedErrorRows st upload).filter
              (fun o => decide (o.id ≠ rid))).Sublist
            (unreviewedErrorRows st upload) := List.filter_sublist _
        have hslm := hsl.map (fun o => o.data_id)
        have hsub : (((unreviewedErrorRows st upload).filter
              (fun o => decide (o.id ≠ rid))).map (·.data_id)).dedup.length ≤
            ((unreviewedErrorRows st upload).map (·.data_id)).dedup.length := by
          rw [← List.card_toFinset, ← List.card_toFinset]
          apply Finset.card_le_card
          intro x hx
          rw [List.mem_toFinset] at hx ⊢
          exact hslm.subset hx
        have htotpos : (0 : ℚ) <
            (st.normalized.filter (fun nd => nd.upload_id == upload)).length := by
          have : 0 < (st.normalized.filter
              (fun nd => nd.upload_id == upload)).length := Nat.pos_of_ne_zero htot
          exact_mod_cast this
        have hcast : ((((unreviewedErrorRows st upload).filter
              (fun o => decide (o.id ≠ rid))).map (·.data_id)).dedup.length : ℚ) ≤
            (((unreviewedErrorRows st upload).map (·.data_id)).dedup.length : ℚ) := by
          exact_mod_cast hsub
        have hnum : ((st.normalized.filter
              (fun nd => nd.upload_id == upload)).length : ℚ) -
              (((unreviewedErrorRows st upload).map (·.data_id)).dedup.length : ℚ) ≤
            ((st.normalized.filter
              (fun nd => nd.upload_id == upload)).length : ℚ) -
              ((((unreviewedErrorRows st upload).filter
                (fun o => decide (o.id ≠ rid))).map (·.data_id)).dedup.length : ℚ) := by
          linarith
        exact mul_le_mul_of_nonneg_right
          ((div_le_div_iff_of_pos_right htotpos).mpr hnum) (by norm_num)

def C6store : Store :=
  { normalized := [{ id := 0, upload_id := 7 }],
    outcomes := [{ id := 1, data_id := 0, rule_name := "r1",
                   severity := Severity.error, is_valid := false,
                   reviewed := false, reviewer_notes := none }] }

def C6after : Store :=
  { normalized := [{ id := 0, upload_id := 7 }],
    outcomes := [{ id := 1, data_id := 0, rule_name := "r1",
                   severity := Severity.error, is_valid := false,
                   reviewed := true, reviewer_notes := some "ok" }] }

/-- Witness for C6 on a one-record, one-error store. -/
theorem C6_witness :
    (∀ o ∈ get_unreviewed_errors C6after 7, o.id ≠ 1) ∧
    calculate_final_pass_rate C6store 7 ≤ calculate_final_pass_rate C6after 7 :=
  C6_mark_reviewed_removes_and_pass_rate_monotone C6store 1 "bob" "ok" 7
    C6after (by decide) (by decide)

/-! ## C5 — validate_batch as a union of three passes -/

theorem batchAll_dictAppend (d : BatchResults) (k : Nat) (v : VResult)
    (res : VResult) :
    res ∈ batchAll (dictAppendNat d k v) ↔ res ∈ batchAll d ∨ res = v := by
  induction d with
  | nil => simp [dictAppendNat, batchAll]
  | cons p rest ih =>
    obtain ⟨k', vs⟩ := p
    unfold dictAppendNat
    by_cases hk : k' = k
    · rw [if_pos hk]
      simp only [batchAll, List.map_cons, List.flatten_cons, List.mem_append,
        List.mem_cons, List.mem_singleton]
      tauto
    · rw [if_neg hk]
      simp only [batchAll, List.map_cons, List.flatten_cons,
        List.mem_append] at ih ⊢
      tauto

theorem batchAll_appendFold (results : List VResult) (init : BatchResults)
    (res : VResult) :
    res ∈ batchAll (results.foldl
        (fun acc r => dictAppendNat acc r.data_id r) init) ↔
      res ∈ batchAll init ∨ res ∈ results := by
  induction results generalizing init with
  | nil => simp
  | cons r rest ih =>
    simp only [List.foldl_cons, List.mem_cons]
    rw [ih, batchAll_dictAppend]
    tauto

theorem dictSetNat_append (d : BatchResults) (k : Nat) (v : List VResult)
    (hk : k ∉ d.map (·.1)) : dictSetNat d k v = d ++ [(k, v)] := by
  induction d with
  | nil => rfl
  | cons p rest ih =>
    obtain ⟨k', vs⟩ := p
    simp only [List.map_cons, List.mem_cons] at hk
    push_neg at hk
    unfold dictSetNat
    rw [if_neg (by exact fun h => hk.1 h.symm)]
    rw [List.cons_append]
    congr 1
    exact ih hk.2

theorem batchAll_append (d1 d2 : BatchResults) :
    batchAll (d1 ++ d2) = batchAll d1 ++ batchAll d2 := by
  simp [batchAll]

theorem batchAll_phase1 (records : List NRecord) (acc : BatchResults)
    (vr : NRecord → List VResult) (res : VResult)
    (hids : (records.map (·.id)).Nodup)
    (hdisj : ∀ k ∈ acc.map (·.1), k ∉ records.map (·.id)) :
    res ∈ batchAll (records.foldl
        (fun a r => if (vr r).isEmpty then a else dictSetNat a r.id (vr r))
        acc) ↔
      res ∈ batchAll acc ∨ ∃ r ∈ records, res ∈ vr r := by
  induction records generalizing acc with
  | nil => simp
  | cons r rest ih =>
    simp only [List.map_cons, List.nodup_cons] at hids
    have hdisjr : ∀ k ∈ acc.map (·.1), k ∉ rest.map (·.id) := by
      intro k hk
      have := hdisj k hk
      simp only [List.map_cons, List.mem_cons] at this
      push_neg at this
      exact this.2
    simp only [List.foldl_cons, List.mem_cons]
    by_cases hemp : (vr r).isEmpty
    · rw [if_pos hemp]
      rw [ih acc hids.2 hdisjr]
      have : ∀ x, x ∉ vr r := by
        intro x hx
        rw [List.isEmpty_iff.mp hemp] at hx
        simp at hx
      constructor
      · rintro (h | h)
        · exact Or.inl h
        · rcases h with ⟨q, hq, hres⟩
          exact Or.inr ⟨q, Or.inr hq, hres⟩
      · rintro (h | ⟨q, (hq | hq), hres⟩)
        · exact Or.inl h
        · exact absurd hres (hq ▸ this res)
        · exact Or.inr ⟨q, hq, hres⟩
    · rw [if_neg hemp]
      have hknotin : r.id ∉ acc.map (·.1) := by
        intro hk
        have := hdisj _ hk
        simp at this
      rw [dictSetNat_append _ _ _ hknotin]
      have hdisj' : ∀ k ∈ (acc ++ [(r.id, vr r)]).map (·.1),
          k ∉ rest.map (·.id) := by
        intro k hk
        simp only [List.map_append, List.mem_append, List.map_cons,
          List.mem_singleton, List.map_nil, List.mem_cons] at hk
        rcases hk with hk | hk
        · exact hdisjr k hk
        · simp only [List.not_mem_nil, or_false] at hk
          rw [hk]
          exact hids.1
      rw [ih _ hids.2 hdisj']
      rw [batchAll_append]
      simp only [batchAll, List.map_cons, List.map_nil, List.flatten_cons,
        List.flatten_nil, List.append_nil, List.mem_append]
      constructor
      · rintro ((h | h) | h)
        · exact Or.inl h
        · exact Or.inr ⟨r, Or.inl rfl, h⟩
        · rcases h with ⟨q, hq, hres⟩
          exact Or.inr ⟨q, Or.inr hq, hres⟩
      · rintro (h | ⟨q, (hq | hq), hres⟩)
        · exact Or.inl (Or.inl h)
        · exact Or.inl (Or.inr (hq ▸ hres))
        · exact Or.inr ⟨q, hq, hres⟩

/-- C5 amended: an outcome appears in `validate_batch(records, industry)`
exactly when it comes from `validate_record` of one of the records, from
the single outlier pass — which runs only when `_get_outlier_rule` finds
an outlier rule in the `cross_industry` bucket (the industry argument is
IGNORED by that lookup) and there are at least 3 records — or from the
single cross-field pass over the indicator-keyed snapshot.  Record ids
must be unique (primary keys), since the per-record dict assignment
overwrites colliding ids. -/
theorem C5_amended_batch_union (E : Engine) (records : List NRecord)
    (industry : String) (res : VResult)
    (hids : (records.map (·.id)).Nodup) :
    res ∈ batchAll (validate_batch E records industry) ↔
      ((∃ r ∈ records, res ∈ validate_record E r industry) ∨
       (∃ orule, get_outlier_rule E industry = some orule ∧
         3 ≤ records.length ∧
         res ∈ outlier_detection (records.map (fun r => (r.id, r.value)))
           orule) ∨
       res ∈ validate_cross_field_consistency E records) := by
  simp only [validate_batch]
  rw [batchAll_appendFold]
  cases ho : get_outlier_rule E industry with
  | none =>
    dsimp only
    rw [batchAll_phase1 _ _ _ _ hids (by simp)]
    simp only [batchAll, List.map_nil, List.flatten_nil, List.not_mem_nil,
      false_or]
    constructor
    · rintro (h | h)
      · exact Or.inl h
      · exact Or.inr (Or.inr h)
    · rintro (h | ⟨orule, hor, -⟩ | h)
      · exact Or.inl h
      · exact absurd hor (by simp)
      · exact Or.inr h
  | some orule =>
    dsimp only
    by_cases hlen : records.length ≥ 3
    · rw [if_pos hlen]
      rw [batchAll_appendFold]
      rw [batchAll_phase1 _ _ _ _ hids (by simp)]
      simp only [batchAll, List.map_nil, List.flatten_nil, List.not_mem_nil,
        false_or]
      constructor
      · rintro ((h | h) | h)
        · exact Or.inl h
        · exact Or.inr (Or.inl ⟨orule, rfl, hlen, h⟩)
        · exact Or.inr (Or.inr h)
      · rintro (h | ⟨orule2, hor2, -, h⟩ | h)
        · exact Or.inl (Or.inl h)
        · injection hor2 with he
          refine Or.inl (Or.inr ?_)
          rw [he]
          exact h
        · exact Or.inr h
    · rw [if_neg hlen]
      rw [batchAll_phase1 _ _ _ _ hids (by simp)]
      simp only [batchAll, List.map_nil, List.flatten_nil, List.not_mem_nil,
        false_or]
      constructor
      · rintro (h | h)
        · exact Or.inl h
        · exact Or.inr (Or.inr h)
      · rintro (h | ⟨orule2, -, hlen2, -⟩ | h)
        · exact Or.inl h
        · exact absurd hlen2 hlen
        · exact Or.inr h

/-- An engine whose only outlier rule sits under the industry itself,
not under `cross_industry`. -/
def E5 : Engine := [("steel", [("r1", outlierRule)])]

/-- Eleven records sharing one indicator: ten zeros and a lone 11, whose
sample z-score 10/√11 ≈ 3.015 exceeds the default threshold 3. -/
def recs5 : List NRecord :=
  (List.range 11).map (fun i =>
    { id := i, indicator := "x", value := if i = 10 then 11 else 0,
      unit := "u", original_value := 0, original_unit := "u" })

/-- C5 counterexample: the industry "steel" defines an outlier rule
(so, per the claim, the outlier pass should run on these 11 records and
flag the lone 11 among ten 0s), but `_get_outlier_rule` consults only the
`cross_industry` bucket, which is empty here, so `validate_batch` returns
no outcome at all. -/
theorem C5_counterexample :
    spec_outlier_rule_exists E5 "steel" = true ∧
    3 ≤ recs5.length ∧
    outlier_detection (recs5.map (fun r => (r.id, r.value))) outlierRule ≠
      [] ∧
    validate_batch E5 recs5 "steel" = [] := by
  refine ⟨by decide, by decide, ?_, by decide⟩
  norm_num [outlier_detection, recs5, outlierRule, emptyParams, sampleVar,
    pyMean, zFlag, List.filterMap, List.range, List.range.loop]

/-- Witness for C5's characterisation at the concrete engine and batch. -/
theorem C5_witness :
    outRes outlierRule (0, 0) ∈ batchAll (validate_batch E5 recs5 "steel") ↔
      ((∃ r ∈ recs5,
          outRes outlierRule (0, 0) ∈ validate_record E5 r "steel") ∨
       (∃ orule, get_outlier_rule E5 "steel" = some orule ∧
         3 ≤ recs5.length ∧
         outRes outlierRule (0, 0) ∈
           outlier_detection (recs5.map (fun r => (r.id, r.value))) orule) ∨
       outRes outlierRule (0, 0) ∈ validate_cross_field_consistency E5 recs5) :=
  C5_amended_batch_union E5 recs5 "steel" (outRes outlierRule (0, 0))
    (by decide)

end ESG
